import Mathlib

/-!
Verification development for the FlaschenTaschen speech→pitch-shift→resample→
playback pipeline.

The C++ sources are embedded shallowly:
* machine `double`/`float` arithmetic is modelled exactly over `ℚ` (and over `ℝ`
  where the source computes with `pow`/`log2`),
* preallocated output buffers become `List.range len |>.map f`, so a buffer's
  length is fixed by its allocation exactly as in the source,
* calls into external libraries (the World vocoder, WASAPI/COM) are abstracted
  as parameters: a structure of functions (`WorldApi`) or of call outcomes
  (`WasapiEnv`), so every theorem quantifies over all possible behaviours of
  the external code while the repository's own control flow is kept verbatim.
-/

namespace FlaschenTaschen

/-! ## Rate Converter: FTVoxProcessor::resample (mypluginprocessor.cpp)

The source:
```
std::vector<float> FTVoxProcessor::resample(const std::vector<float>& input, int inputRate, int outputRate)
-- if (inputRate == outputRate || input.empty()) return input;
-- double ratio = (double)outputRate / inputRate;
-- size_t outputSize = (size_t)(input.size() * ratio);
-- for i in [0, outputSize):
--   double srcPos = i / ratio; size_t srcIndex = (size_t)srcPos; double frac = srcPos - srcIndex;
--   if (srcIndex + 1 < input.size())      out[i] = in[srcIndex]*(1-frac) + in[srcIndex+1]*frac;
--   else if (srcIndex < input.size())     out[i] = in[srcIndex];
--   else                                  out[i] = 0.0f;
```
`static_cast<size_t>` of a non-negative value truncates, i.e. is `Nat.floor`.
-/

/-- One output sample of `FTVoxProcessor::resample` at output index `i`,
given the precomputed `ratio = outputRate / inputRate`. -/
def resampleSample (input : List ℚ) (ratio : ℚ) (i : ℕ) : ℚ :=
  let srcPos : ℚ := (i : ℚ) / ratio
  let srcIndex : ℕ := ⌊srcPos⌋₊
  let frac : ℚ := srcPos - (srcIndex : ℚ)
  if srcIndex + 1 < input.length then
    input.getD srcIndex 0 * (1 - frac) + input.getD (srcIndex + 1) 0 * frac
  else if srcIndex < input.length then
    input.getD srcIndex 0
  else 0

/-- Shallow embedding of `FTVoxProcessor::resample`: linear-interpolation rate
conversion with an early identity return when the rates agree or the input is
empty. Rates are the C++ `int` arguments, samples are exact rationals. -/
def resample (input : List ℚ) (inputRate outputRate : ℤ) : List ℚ :=
  if inputRate = outputRate ∨ input = [] then input
  else
    let ratio : ℚ := (outputRate : ℚ) / (inputRate : ℚ)
    let outputSize : ℕ := ⌊(input.length : ℚ) * ratio⌋₊
    (List.range outputSize).map (resampleSample input ratio)

/-- Interpolated read of `input` at fractional position `pos`, clamping a
trailing partial frame to the last available input sample.  Written from the
spec's sentence for claim C3; used to state the amended refinement. -/
def interpAtClamped (input : List ℚ) (pos : ℚ) : ℚ :=
  let k : ℕ := ⌊pos⌋₊
  let frac : ℚ := pos - (k : ℚ)
  if k + 1 < input.length then
    input.getD k 0 * (1 - frac) + input.getD (k + 1) 0 * frac
  else input.getD (input.length - 1) 0

/-- Modelled from the spec's sentence for claim C3, amended in one place: the
output length is the truncation (floor) of `inputLength * toRate / fromRate`
rather than the round; each output sample is the linear interpolation at the
corresponding fractional source position with the trailing clamp. -/
def resampleSpecFloor (input : List ℚ) (fromRate toRate : ℤ) : List ℚ :=
  (List.range ⌊(input.length : ℚ) * (toRate : ℚ) / (fromRate : ℚ)⌋₊).map
    fun i : ℕ => interpAtClamped input ((i : ℚ) * (fromRate : ℚ) / (toRate : ℚ))

/-! ## Pitch Shifter: WorldPitchShifter (WorldPitchShifter.cpp)

`pitchShiftWorld` drives the external World vocoder (`Dio`, `CheapTrick`,
`D4C`, `Synthesis`).  Those library functions are not part of this repository;
they fill buffers the repository allocates.  They are therefore abstracted as
a structure of arbitrary functions (`WorldApi`); each buffer the C++ code
allocates with a fixed size and hands to the library becomes
`(List.range size).map f`, so the buffer's length is fixed by the allocation
while its contents are arbitrary, exactly as in the source. -/

/-- The `DioOption` record as configured in `pitchShiftWorld` (lines 97-103):
`frame_period = framePeriod_`, `speed = 1`, `f0_floor = 71.0`,
`f0_ceil = 800.0`, `allowed_range = 0.1`. -/
structure DioOption where
  framePeriod : ℚ
  speed : ℕ
  f0Floor : ℚ
  f0Ceil : ℚ
  allowedRange : ℚ

/-- Abstraction of the external World vocoder library.  Each field models one
external entry point as an arbitrary function of the data the repository
passes to it; a sample-producing call is modelled per buffer index. -/
structure WorldApi where
  getSamplesForDIO : ℕ → ℕ → ℚ → ℕ
  dioTemporalPosition : List ℚ → ℕ → DioOption → ℕ → ℚ
  dioF0 : List ℚ → ℕ → DioOption → ℕ → ℚ
  fftSizeForCheapTrick : ℕ → ℕ
  cheapTrick : List ℚ → ℕ → List ℚ → List ℚ → ℕ → ℕ → ℚ
  d4c : List ℚ → ℕ → List ℚ → List ℚ → ℕ → ℕ → ℕ → ℚ
  synthesisSample : List ℚ → List (List ℚ) → List (List ℚ) → ℕ → ℚ → ℕ → ℕ → ℚ

/-- The F0-modification step of `pitchShiftWorld` (lines 142-152): each voiced
frame (`f0[i] > 0`) is scaled by `ratio`, each unvoiced frame is written as
`0.0`.  No clamping appears in this loop. -/
def modifiedF0 (f0 : List ℚ) (ratio : ℚ) : List ℚ :=
  f0.map fun v => if 0 < v then v * ratio else 0

/-- Shallow embedding of `WorldPitchShifter::pitchShiftWorld`.  `sampleRate`
and `framePeriod` are the members `sampleRate_` and `framePeriod_`; the World
library is the parameter `W`.  The guard, the buffer allocations (all sized
from `f0Length`, `specLength` and `outputLength = inputLength`) and the F0
loop follow the source line by line. -/
def pitchShiftWorld (W : WorldApi) (sampleRate : ℕ) (framePeriod : ℚ)
    (input : List ℚ) (ratio : ℚ) : List ℚ :=
  if input = [] ∨ ratio ≤ 0 ∨ |ratio - 1| < 1 / 1000 then input
  else
    let x := input
    let inputLength := x.length
    let dioOption : DioOption :=
      { framePeriod := framePeriod, speed := 1, f0Floor := 71, f0Ceil := 800,
        allowedRange := 1 / 10 }
    let f0Length := W.getSamplesForDIO sampleRate inputLength framePeriod
    let temporalPositions :=
      (List.range f0Length).map (W.dioTemporalPosition x sampleRate dioOption)
    let f0 := (List.range f0Length).map (W.dioF0 x sampleRate dioOption)
    let fftSize := W.fftSizeForCheapTrick sampleRate
    let specLength := fftSize / 2 + 1
    let spectrogram := (List.range f0Length).map fun i =>
      (List.range specLength).map (W.cheapTrick x sampleRate temporalPositions f0 i)
    let aperiodicity := (List.range f0Length).map fun i =>
      (List.range specLength).map (W.d4c x sampleRate temporalPositions f0 fftSize i)
    let mf0 := modifiedF0 f0 ratio
    let outputLength := inputLength
    (List.range outputLength).map
      (W.synthesisSample mf0 spectrogram aperiodicity fftSize framePeriod sampleRate)

/-- A concrete World-library instance (all external calls return zeroes),
used to evaluate the embedding at concrete inputs. -/
def zeroWorldApi : WorldApi where
  getSamplesForDIO := fun _ _ _ => 0
  dioTemporalPosition := fun _ _ _ _ => 0
  dioF0 := fun _ _ _ _ => 0
  fftSizeForCheapTrick := fun _ => 0
  cheapTrick := fun _ _ _ _ _ _ => 0
  d4c := fun _ _ _ _ _ _ _ => 0
  synthesisSample := fun _ _ _ _ _ _ _ => 0

/-- Clamped variant of the F0-modification step, modelled from the spec's
words for claim C2 ("every modified F0 value is clamped to the same
floor/ceiling used for extraction, 71 Hz floor, 800 Hz ceiling"); the
source's loop has no such clamp, and the two definitions differ. -/
def modifiedF0Clamped (f0 : List ℚ) (ratio : ℚ) : List ℚ :=
  f0.map fun v => if 0 < v then max 71 (min 800 (v * ratio)) else 0

/-! ## Cross-Thread Audio Relay: the ttsAudioBuffer_ queue (mypluginprocessor.cpp)

Producer side (`FTVoxProcessor::speakSyllable`, lines 376-381): the generated,
shifted and resampled samples are appended to the tail of `ttsAudioBuffer_`
under `ttsBufferMutex_`.  Consumer side (`FTVoxProcessor::processTTSAudio`,
lines 384-408): up to `numSamples` frames are copied out of the head, each
mono sample replicated to every output channel, missing frames filled with
`0.0f`, and the consumed head erased.  The lock serialises the two, so each
call is modelled as an atomic function of the queue. -/

/-- The relay-append step of `FTVoxProcessor::speakSyllable`:
`ttsAudioBuffer_.insert(ttsAudioBuffer_.end(), samples.begin(), samples.end())`. -/
def speakSyllableAppend (queue block : List ℚ) : List ℚ :=
  queue ++ block

/-- Shallow embedding of `FTVoxProcessor::processTTSAudio`.  Returns the
frames written to the device buffer (each frame is one mono sample replicated
across `numChannels` channels) together with the queue left behind. -/
def processTTSAudio (queue : List ℚ) (numChannels numSamples : ℕ) :
    List (List ℚ) × List ℚ :=
  let samplesAvailable := queue.length
  let framesToRead := min numSamples samplesAvailable
  let frames := (List.range numSamples).map fun frame =>
    let sample : ℚ :=
      if frame < framesToRead ∧ frame < queue.length then queue.getD frame 0 else 0
    List.replicate numChannels sample
  let remaining :=
    if 0 < framesToRead ∧ framesToRead ≤ queue.length then queue.drop framesToRead
    else queue
  (frames, remaining)

/-- Repeated render-loop drains: one `processTTSAudio` call per requested
chunk size, threading the queue through and concatenating the emitted
frames. -/
def drainChunks (queue : List ℚ) (numChannels : ℕ) :
    List ℕ → List (List ℚ) × List ℚ
  | [] => ([], queue)
  | c :: cs =>
    let step := processTTSAudio queue numChannels c
    let rest := drainChunks step.2 numChannels cs
    (step.1 ++ rest.1, rest.2)

/-! ## Pitch target mapping (WorldPitchShifter.cpp)

`midiNoteToFrequency` (lines 32-35) and the semitone computation inside
`processToFrequency` (lines 68-80) use `std::pow` and `std::log2`; they are
modelled over `ℝ` with `Real.rpow` and `Real.logb`. -/

/-- Shallow embedding of `WorldPitchShifter::midiNoteToFrequency`:
`440.0 * std::pow(2.0, (midiNote - 69) / 12.0)`. -/
noncomputable def midiNoteToFrequency (midiNote : ℤ) : ℝ :=
  440 * (2 : ℝ) ^ (((midiNote : ℝ) - 69) / 12)

/-- The clamped semitone shift computed inside
`WorldPitchShifter::processToFrequency`:
`semitones = 12 * log2(targetFreqHz / 261.63)` clamped by
`(std::max)(-36.0, (std::min)(36.0, semitones))`. -/
noncomputable def processToFrequencySemitones (targetFreqHz : ℝ) : ℝ :=
  max (-36) (min 36 (12 * Real.logb 2 (targetFreqHz / 261.63)))

/-- The pitch-shift ratio `std::pow(2.0, semitones / 12.0)` that
`processToFrequency` hands to `pitchShiftWorld`, computed from the already
clamped semitone value. -/
noncomputable def processToFrequencyRatio (targetFreqHz : ℝ) : ℝ :=
  (2 : ℝ) ^ (processToFrequencySemitones targetFreqHz / 12)

/-! ## Real-Time Output Engine: WasapiAudio (WasapiAudio.cpp / WasapiAudio.h)

`WasapiAudio::initialize` is a straight-line sequence of COM/WASAPI calls,
each of which either succeeds or makes the function set `lastError_` and
return `false`.  The outcome of every external call is abstracted into a
`WasapiEnv`; the object's member state (the fields of the class relevant to
the claims, plus a counter of spawned threads) is a `WasapiState`.  The member
`running_` is only written by `start`/`stop`, and `std::thread` construction
occurs solely in `start` (line 287), which the model mirrors: only `wasapiStart`
touches `running` or `threadsSpawned`. -/

/-- Outcomes of the external COM/WASAPI calls made by `WasapiAudio`. -/
structure WasapiEnv where
  comOk : Bool
  createEnumeratorOk : Bool
  defaultDeviceOk : Bool
  resolveDevice : String → Bool
  activateOk : Bool
  mixFormatOk : Bool
  mixSampleRate : ℕ
  mixChannels : ℕ
  audioClientInitOk : ℤ → Bool
  bufferSizeOk : Bool
  bufferFrames : ℕ
  createEventOk : Bool
  setEventOk : Bool
  getServiceOk : Bool
  audioStartOk : Bool

/-- The `WasapiAudio` members the claims speak about, with the constructor
defaults of WasapiAudio.h; `hasAudioClient`/`hasRenderClient` model the
null-ness of `audioClient_`/`renderClient_`, and `threadsSpawned` counts
`std::thread` constructions. -/
structure WasapiState where
  sampleRate : ℕ := 44100
  numChannels : ℕ := 2
  bufferFrames : ℕ := 0
  running : Bool := false
  lastError : String := ""
  hasAudioClient : Bool := false
  hasRenderClient : Bool := false
  threadsSpawned : ℕ := 0

/-- The tail of `WasapiAudio::initialize` after the device has been resolved
(lines 194-269): activate the audio client, read the mix format, clamp the
requested buffer duration (`<= 0` becomes 20 ms, capped at 500 ms), set up
the client, the buffer size, the event and the render client.  The `hr`
detail interpolated into the audio-client message is elided. -/
def wasapiInitAfterDevice (env : WasapiEnv) (s : WasapiState) (bufferMs : ℤ) :
    Bool × WasapiState :=
  if env.activateOk = false then
    (false, { s with lastError := "Failed to activate audio client" })
  else
    let s1 := { s with hasAudioClient := true }
    if env.mixFormatOk = false then
      (false, { s1 with lastError := "Failed to get mix format" })
    else
      let s2 := { s1 with sampleRate := env.mixSampleRate,
                          numChannels := env.mixChannels }
      let b1 : ℤ := if bufferMs ≤ 0 then 20 else bufferMs
      let b2 : ℤ := if 500 < b1 then 500 else b1
      let requestedDuration : ℤ := b2 * 10000
      if env.audioClientInitOk requestedDuration = false then
        (false, { s2 with lastError := "Failed to initialize audio client" })
      else if env.bufferSizeOk = false then
        (false, { s2 with lastError := "Failed to get buffer size" })
      else
        let s3 := { s2 with bufferFrames := env.bufferFrames }
        if env.createEventOk = false then
          (false, { s3 with lastError := "Failed to create audio event" })
        else if env.setEventOk = false then
          (false, { s3 with lastError := "Failed to set event handle" })
        else if env.getServiceOk = false then
          (false, { s3 with lastError := "Failed to get render client" })
        else (true, { s3 with hasRenderClient := true })

/-- Shallow embedding of `WasapiAudio::initialize(deviceId, bufferMs)`
(lines 155-270): COM setup, enumerator creation, then device resolution — the
default render endpoint when `deviceId` is empty, `GetDevice(deviceId)`
otherwise — and the common tail `wasapiInitAfterDevice`. -/
def wasapiInit (env : WasapiEnv) (s : WasapiState) (deviceId : String)
    (bufferMs : ℤ) : Bool × WasapiState :=
  if env.comOk = false then
    (false, { s with lastError := "Failed to initialize COM" })
  else if env.createEnumeratorOk = false then
    (false, { s with lastError := "Failed to create device enumerator" })
  else if deviceId = "" then
    if env.defaultDeviceOk = false then
      (false, { s with lastError := "Failed to get default audio device" })
    else wasapiInitAfterDevice env s bufferMs
  else
    if env.resolveDevice deviceId = false then
      (false, { s with lastError := "Failed to get audio device: " ++ deviceId })
    else wasapiInitAfterDevice env s bufferMs

/-- Shallow embedding of `WasapiAudio::start` (lines 273-301): the only place
a worker thread is constructed.  On `audioClient_->Start()` failure the thread
is joined again and `running_` reset. -/
def wasapiStart (env : WasapiEnv) (s : WasapiState) : Bool × WasapiState :=
  if s.running = true then (true, s)
  else if s.hasAudioClient = false ∨ s.hasRenderClient = false then
    (false, { s with lastError := "Audio not initialized" })
  else
    let s1 := { s with running := true, threadsSpawned := s.threadsSpawned + 1 }
    if env.audioStartOk = false then
      (false, { s1 with running := false, lastError := "Failed to start audio client" })
    else (true, s1)

/-- A concrete environment in which no device selector resolves (the default
endpoint query and every `GetDevice` call fail) while all other calls
succeed. -/
def noDeviceEnv : WasapiEnv where
  comOk := true
  createEnumeratorOk := true
  defaultDeviceOk := false
  resolveDevice := fun _ => false
  activateOk := true
  mixFormatOk := true
  mixSampleRate := 48000
  mixChannels := 2
  audioClientInitOk := fun _ => true
  bufferSizeOk := true
  bufferFrames := 960
  createEventOk := true
  setEventOk := true
  getServiceOk := true
  audioStartOk := true

/-- A freshly constructed `WasapiAudio` object: all members at their
declaration defaults. -/
def freshWasapiState : WasapiState := {}

end FlaschenTaschen

namespace FlaschenTaschen

/-- Claim C1: for every behaviour of the external World library, every
non-empty input block and every ratio > 0, `pitchShiftWorld` returns a block
with the same sample count as the input (either via the bypass guard or via
the output buffer allocated with `outputLength = inputLength`). -/
theorem pitchShiftWorld_preserves_length (W : WorldApi) (sampleRate : ℕ)
    (framePeriod : ℚ) (input : List ℚ) (ratio : ℚ)
    (hne : input ≠ []) (hpos : 0 < ratio) :
    (pitchShiftWorld W sampleRate framePeriod input ratio).length = input.length := by
  unfold pitchShiftWorld
  by_cases h : input = [] ∨ ratio ≤ 0 ∨ |ratio - 1| < 1 / 1000
  · rw [if_pos h]
  · rw [if_neg h]
    simp

/-- Witness for claim C1 at a concrete input. -/
theorem pitchShiftWorld_preserves_length_witness :
    ([(1 : ℚ) / 2] ≠ [] ∧ 0 < (2 : ℚ)) ∧
    (pitchShiftWorld zeroWorldApi 44100 5 [(1 : ℚ) / 2] 2).length = [(1 : ℚ) / 2].length :=
  ⟨⟨by decide, by decide⟩,
    pitchShiftWorld_preserves_length zeroWorldApi 44100 5 [(1 : ℚ) / 2] 2
      (by decide) (by decide)⟩

/-- Claim C4: `pitchShiftWorld` is an exact passthrough whenever the input is
empty, the ratio is non-positive, or `|ratio − 1| < 0.001`; in particular a
non-positive ratio returns the input unchanged rather than silence. -/
theorem pitchShiftWorld_bypass (W : WorldApi) (sampleRate : ℕ)
    (framePeriod : ℚ) (input : List ℚ) (ratio : ℚ)
    (h : input = [] ∨ ratio ≤ 0 ∨ |ratio - 1| < 1 / 1000) :
    pitchShiftWorld W sampleRate framePeriod input ratio = input := by
  unfold pitchShiftWorld
  rw [if_pos h]

/-- Witness for claim C4: a negative ratio passes a concrete block through
unchanged. -/
theorem pitchShiftWorld_bypass_witness :
    ([(1 : ℚ) / 2, 1 / 3] = [] ∨ (-1 : ℚ) ≤ 0 ∨ |(-1 : ℚ) - 1| < 1 / 1000) ∧
    pitchShiftWorld zeroWorldApi 44100 5 [(1 : ℚ) / 2, 1 / 3] (-1) = [(1 : ℚ) / 2, 1 / 3] :=
  ⟨Or.inr (Or.inl (by norm_num)),
    pitchShiftWorld_bypass zeroWorldApi 44100 5 [(1 : ℚ) / 2, 1 / 3] (-1)
      (Or.inr (Or.inl (by norm_num)))⟩

/-- Claim C2, counterexample: the F0-modification loop does not clamp.  With
an extracted voiced F0 of 500 Hz and ratio 2 the loop produces 1000 Hz, above
the 800 Hz extraction ceiling, whereas the claimed clamped semantics would
produce 800 Hz. -/
theorem modifiedF0_not_clamped_cex :
    modifiedF0 [500] 2 = [1000] ∧ modifiedF0Clamped [500] 2 = [800] ∧
    modifiedF0 [500] 2 ≠ modifiedF0Clamped [500] 2 := by
  refine ⟨by norm_num [modifiedF0], by norm_num [modifiedF0Clamped], ?_⟩
  norm_num [modifiedF0, modifiedF0Clamped]

/-- Claim C2 (amended): per analysis frame, a voiced frame's F0 (`f0[i] > 0`)
is multiplied by the shift ratio and an unvoiced frame stays 0; no clamping is
applied to the modified values.  Stated frame-wise with length preservation. -/
theorem modifiedF0_frames (f0 : List ℚ) (ratio : ℚ) :
    (modifiedF0 f0 ratio).length = f0.length ∧
    ∀ i, i < f0.length →
      (modifiedF0 f0 ratio).getD i 0 =
        if 0 < f0.getD i 0 then f0.getD i 0 * ratio else 0 := by
  constructor
  · simp [modifiedF0]
  · intro i hi
    simp [modifiedF0, List.getD, List.getElem?_map, List.getElem?_eq_getElem hi]

/-- Witness for claim C2's amended theorem at a concrete voiced frame. -/
theorem modifiedF0_frames_witness :
    (0 < [(500 : ℚ), 0].length) ∧
    (modifiedF0 [(500 : ℚ), 0] 3).getD 0 0 =
      if 0 < ([(500 : ℚ), 0]).getD 0 0 then ([(500 : ℚ), 0]).getD 0 0 * 3 else 0 :=
  ⟨by decide, (modifiedF0_frames [(500 : ℚ), 0] 3).2 0 (by decide)⟩

/-- Reading the first `c` queued samples by index equals taking the first `c`
elements of the queue. -/
lemma range_map_getD_eq_take (q : List ℚ) (c : ℕ) (h : c ≤ q.length) :
    (List.range c).map (fun f => q.getD f 0) = q.take c := by
  apply List.ext_getElem
  · simp [List.length_take]
    omega
  · intro i h1 h2
    have hi : i < c := by simpa using h1
    have hiq : i < q.length := lt_of_lt_of_le hi h
    simp [List.getElem_map, List.getElem_range, List.getElem_take, List.getD,
      List.getElem?_eq_getElem hiq]

/-- One drain of `c ≤ queue.length` frames emits exactly the first `c` queued
samples (each broadcast over the channels) and drops them from the head. -/
lemma processTTSAudio_take (q : List ℚ) (ch c : ℕ) (h : c ≤ q.length) :
    (processTTSAudio q ch c).1 = (q.take c).map (List.replicate ch) ∧
    (processTTSAudio q ch c).2 = q.drop c := by
  have hmin : min c q.length = c := Nat.min_eq_left h
  constructor
  · show (List.range c).map _ = _
    rw [← range_map_getD_eq_take q c h, List.map_map]
    apply List.map_congr_left
    intro f hf
    have hfc : f < c := List.mem_range.mp hf
    simp [hmin, hfc, lt_of_lt_of_le hfc h]
  · show (if 0 < min c q.length ∧ min c q.length ≤ q.length then _ else q) = _
    rw [hmin]
    rcases Nat.eq_zero_or_pos c with hc | hc
    · subst hc; simp
    · rw [if_pos ⟨hc, h⟩]

/-- Draining a sequence of chunks whose total does not exceed the queue emits
the corresponding prefix of the queue in order and drops it. -/
lemma drainChunks_spec (ch : ℕ) :
    ∀ (chunks : List ℕ) (q : List ℚ), chunks.sum ≤ q.length →
      (drainChunks q ch chunks).1 = (q.take chunks.sum).map (List.replicate ch) ∧
      (drainChunks q ch chunks).2 = q.drop chunks.sum := by
  intro chunks
  induction chunks with
  | nil => intro q hq; simp [drainChunks]
  | cons c cs ih =>
    intro q hq
    rw [List.sum_cons] at hq
    have hc : c ≤ q.length := le_trans (Nat.le_add_right c cs.sum) hq
    have hstep := processTTSAudio_take q ch c hc
    have hrest : cs.sum ≤ (q.drop c).length := by
      rw [List.length_drop]; omega
    have hih := ih (q.drop c) hrest
    constructor
    · show (processTTSAudio q ch c).1 ++ (drainChunks (processTTSAudio q ch c).2 ch cs).1 = _
      rw [hstep.1, hstep.2, hih.1, List.sum_cons, List.take_add, List.map_append]
    · show (drainChunks (processTTSAudio q ch c).2 ch cs).2 = _
      rw [hstep.2, hih.2, List.drop_drop, List.sum_cons, Nat.add_comm]

/-- Claim C5: a drain request for more frames than are queued writes every
queued sample in order (broadcast over all channels), then exact zeros for the
remaining frames, and leaves the relay queue empty. -/
theorem processTTSAudio_underrun (queue : List ℚ) (numChannels numSamples : ℕ)
    (h : queue.length < numSamples) :
    (processTTSAudio queue numChannels numSamples).1 =
      (queue ++ List.replicate (numSamples - queue.length) 0).map
        (List.replicate numChannels) ∧
    (processTTSAudio queue numChannels numSamples).2 = [] := by
  have hmin : min numSamples queue.length = queue.length :=
    Nat.min_eq_right (le_of_lt h)
  constructor
  · show (List.range numSamples).map _ = _
    apply List.ext_getElem
    · simp
      omega
    · intro i h1 h2
      have hin : i < numSamples := by simpa using h1
      simp only [List.getElem_map, List.getElem_range]
      by_cases hiq : i < queue.length
      · rw [List.getElem_append_left hiq]
        simp [hmin, hiq, List.getD, List.getElem?_eq_getElem hiq]
      · rw [List.getElem_append_right (le_of_not_lt hiq)]
        simp [hmin, hiq]
  · show (if 0 < min numSamples queue.length ∧
        min numSamples queue.length ≤ queue.length then _ else queue) = _
    rw [hmin]
    rcases Nat.eq_zero_or_pos queue.length with hq | hq
    · rw [if_neg (by omega)]
      exact List.eq_nil_of_length_eq_zero hq
    · rw [if_pos ⟨hq, le_refl _⟩, List.drop_length]

/-- Witness for claim C5 at a concrete queue. -/
theorem processTTSAudio_underrun_witness :
    ([(5 : ℚ), 6].length < 3) ∧
    ((processTTSAudio [(5 : ℚ), 6] 2 3).1 =
      ([(5 : ℚ), 6] ++ List.replicate (3 - [(5 : ℚ), 6].length) 0).map
        (List.replicate 2) ∧
    (processTTSAudio [(5 : ℚ), 6] 2 3).2 = []) :=
  ⟨by decide, processTTSAudio_underrun [(5 : ℚ), 6] 2 3 (by decide)⟩

/-- Claim C6: appending blocks A then B to the relay and draining repeatedly
in chunks each smaller than either block (totalling the queued amount) yields
exactly the concatenation `A ++ B` sample-for-sample, each drained mono sample
replicated across all output channels of its frame, leaving the queue empty. -/
theorem relay_fifo (A B : List ℚ) (numChannels : ℕ) (chunks : List ℕ)
    (hA : A ≠ []) (hB : B ≠ [])
    (hsmall : ∀ c ∈ chunks, c < A.length ∧ c < B.length)
    (hsum : chunks.sum = A.length + B.length) :
    (drainChunks (speakSyllableAppend (speakSyllableAppend [] A) B)
        numChannels chunks).1 = (A ++ B).map (List.replicate numChannels) ∧
    (drainChunks (speakSyllableAppend (speakSyllableAppend [] A) B)
        numChannels chunks).2 = [] := by
  have hq : speakSyllableAppend (speakSyllableAppend [] A) B = A ++ B := by
    simp [speakSyllableAppend]
  have hlen : chunks.sum ≤ (A ++ B).length := by
    rw [List.length_append, hsum]
  have hspec := drainChunks_spec numChannels chunks (A ++ B) hlen
  rw [hq]
  constructor
  · rw [hspec.1, hsum, ← List.length_append, List.take_length]
  · rw [hspec.2, hsum, ← List.length_append, List.drop_length]

/-- Witness for claim C6 at concrete blocks and chunk sizes. -/
theorem relay_fifo_witness :
    (([(1 : ℚ), 2] : List ℚ) ≠ [] ∧ ([(3 : ℚ), 4] : List ℚ) ≠ [] ∧
      ([1, 1, 1, 1] : List ℕ).sum = [(1 : ℚ), 2].length + [(3 : ℚ), 4].length) ∧
    (drainChunks (speakSyllableAppend (speakSyllableAppend [] [(1 : ℚ), 2]) [(3 : ℚ), 4])
        2 [1, 1, 1, 1]).1 = ([(1 : ℚ), 2] ++ [(3 : ℚ), 4]).map (List.replicate 2) ∧
    (drainChunks (speakSyllableAppend (speakSyllableAppend [] [(1 : ℚ), 2]) [(3 : ℚ), 4])
        2 [1, 1, 1, 1]).2 = [] :=
  ⟨⟨by decide, by decide, by decide⟩,
    relay_fifo [(1 : ℚ), 2] [(3 : ℚ), 4] 2 [1, 1, 1, 1] (by decide) (by decide)
      (by decide) (by decide)⟩

/-- For positive rates, every output index of the resampler maps to an exact
fractional source position strictly below the input length. -/
lemma srcPos_lt_length (n : ℕ) (fromRate toRate : ℤ) (i : ℕ)
    (hf : 0 < fromRate) (ht : 0 < toRate)
    (hi : i < ⌊(n : ℚ) * ((toRate : ℚ) / (fromRate : ℚ))⌋₊) :
    (i : ℚ) * (fromRate : ℚ) / (toRate : ℚ) < (n : ℚ) := by
  have hf0 : (0 : ℚ) < (fromRate : ℚ) := by exact_mod_cast hf
  have ht0 : (0 : ℚ) < (toRate : ℚ) := by exact_mod_cast ht
  have h1 : i + 1 ≤ ⌊(n : ℚ) * ((toRate : ℚ) / (fromRate : ℚ))⌋₊ := hi
  have h2 : ((i + 1 : ℕ) : ℚ) ≤ (n : ℚ) * ((toRate : ℚ) / (fromRate : ℚ)) :=
    (Nat.le_floor_iff (by positivity)).mp h1
  push_cast at h2
  have h3 : ((i : ℚ) + 1) * (fromRate : ℚ) ≤ (n : ℚ) * (toRate : ℚ) := by
    have h4 := mul_le_mul_of_nonneg_right h2 (le_of_lt hf0)
    calc ((i : ℚ) + 1) * (fromRate : ℚ)
        ≤ (n : ℚ) * ((toRate : ℚ) / (fromRate : ℚ)) * (fromRate : ℚ) := h4
      _ = (n : ℚ) * (toRate : ℚ) := by field_simp
  rw [div_lt_iff ht0]
  nlinarith [hf0]

/-- The division by the precomputed ratio in `resample` equals the direct
fractional source position `i * fromRate / toRate`. -/
lemma srcPos_eq (fromRate toRate : ℤ) (i : ℕ) :
    (i : ℚ) / ((toRate : ℚ) / (fromRate : ℚ)) =
      (i : ℚ) * (fromRate : ℚ) / (toRate : ℚ) := by
  rw [div_div_eq_mul_div]

/-- A `resample` output sample whose source index is in bounds agrees with the
clamped-interpolation reading of the spec. -/
lemma resampleSample_eq_interp (input : List ℚ) (fromRate toRate : ℤ) (i : ℕ)
    (hf : 0 < fromRate) (ht : 0 < toRate)
    (hk : ⌊(i : ℚ) * (fromRate : ℚ) / (toRate : ℚ)⌋₊ < input.length) :
    resampleSample input ((toRate : ℚ) / (fromRate : ℚ)) i =
      interpAtClamped input ((i : ℚ) * (fromRate : ℚ) / (toRate : ℚ)) := by
  have hpos := srcPos_eq fromRate toRate i
  unfold resampleSample interpAtClamped
  rw [hpos]
  by_cases hk1 : ⌊(i : ℚ) * (fromRate : ℚ) / (toRate : ℚ)⌋₊ + 1 < input.length
  · rw [if_pos hk1, if_pos hk1]
  · rw [if_neg hk1, if_neg hk1, if_pos hk]
    have : ⌊(i : ℚ) * (fromRate : ℚ) / (toRate : ℚ)⌋₊ = input.length - 1 := by omega
    rw [this]

/-- Claim C3, counterexample to the rounding: downsampling a 3-sample block
from rate 2 to rate 1 yields 1 output sample, while
`round(3 * 1/2) = round(1.5) = 2`. -/
theorem resample_round_cex :
    (resample [(1 : ℚ), 2, 3] 2 1).length = 1 ∧
    round (([(1 : ℚ), 2, 3].length : ℚ) * (1 : ℚ) / (2 : ℚ)) = (2 : ℤ) ∧
    ((resample [(1 : ℚ), 2, 3] 2 1).length : ℤ) ≠
      round (([(1 : ℚ), 2, 3].length : ℚ) * (1 : ℚ) / (2 : ℚ)) := by
  have h1 : (resample [(1 : ℚ), 2, 3] 2 1).length = 1 := by
    rw [resample, if_neg (by simp)]
    simp
    rw [Nat.floor_eq_iff (by norm_num)]
    norm_num
  have h2 : round (([(1 : ℚ), 2, 3].length : ℚ) * (1 : ℚ) / (2 : ℚ)) = (2 : ℤ) := by
    norm_num [round_eq]
  exact ⟨h1, h2, by rw [h1, h2]; decide⟩

/-- Claim C3 (amended): for non-empty input and distinct positive rates,
`resample` returns the block the spec describes with the output length
truncated (floored) instead of rounded: `⌊inputLength * toRate / fromRate⌋`
samples, each read by linear interpolation at the fractional source position,
with trailing partial frames clamped to the last input sample. -/
theorem resample_matches_floor_spec (input : List ℚ) (fromRate toRate : ℤ)
    (hne : input ≠ []) (hf : 0 < fromRate) (ht : 0 < toRate)
    (hd : fromRate ≠ toRate) :
    resample input fromRate toRate = resampleSpecFloor input fromRate toRate ∧
    (resample input fromRate toRate).length =
      ⌊(input.length : ℚ) * (toRate : ℚ) / (fromRate : ℚ)⌋₊ := by
  have hguard : ¬(fromRate = toRate ∨ input = []) := by
    push_neg; exact ⟨hd, hne⟩
  have hsize : ⌊(input.length : ℚ) * ((toRate : ℚ) / (fromRate : ℚ))⌋₊ =
      ⌊(input.length : ℚ) * (toRate : ℚ) / (fromRate : ℚ)⌋₊ := by
    rw [mul_div_assoc]
  have hmain : resample input fromRate toRate = resampleSpecFloor input fromRate toRate := by
    rw [resample, if_neg hguard]
    show (List.range ⌊(input.length : ℚ) * ((toRate : ℚ) / (fromRate : ℚ))⌋₊).map
        (resampleSample input ((toRate : ℚ) / (fromRate : ℚ))) = _
    rw [resampleSpecFloor, ← hsize]
    apply List.map_congr_left
    intro i hi
    have hi2 : i < ⌊(input.length : ℚ) * ((toRate : ℚ) / (fromRate : ℚ))⌋₊ :=
      List.mem_range.mp hi
    have hlt := srcPos_lt_length input.length fromRate toRate i hf ht hi2
    have hk : ⌊(i : ℚ) * (fromRate : ℚ) / (toRate : ℚ)⌋₊ < input.length := by
      rw [Nat.floor_lt (by positivity)]
      exact_mod_cast hlt
    exact resampleSample_eq_interp input fromRate toRate i hf ht hk
  refine ⟨hmain, ?_⟩
  rw [hmain, resampleSpecFloor]
  simp

/-- Witness for claim C3's amended theorem at a concrete upsampling. -/
theorem resample_matches_floor_spec_witness :
    (([(1 : ℚ), 2, 3] : List ℚ) ≠ [] ∧ (0 : ℤ) < 1 ∧ (0 : ℤ) < 2 ∧ (1 : ℤ) ≠ 2) ∧
    resample [(1 : ℚ), 2, 3] 1 2 = resampleSpecFloor [(1 : ℚ), 2, 3] 1 2 ∧
    (resample [(1 : ℚ), 2, 3] 1 2).length =
      ⌊(([(1 : ℚ), 2, 3].length : ℚ)) * ((2 : ℤ) : ℚ) / ((1 : ℤ) : ℚ)⌋₊ :=
  ⟨⟨by decide, by decide, by decide, by decide⟩,
    resample_matches_floor_spec [(1 : ℚ), 2, 3] 1 2 (by decide) (by decide)
      (by decide) (by decide)⟩

/-- Claim C10: for non-empty input and distinct positive rates, every output
index maps to a fractional source position strictly below the input length (in
exact arithmetic), so the source index is in bounds, the final `else` branch
writing `0.0` is unreachable, and every output sample is either a linear
interpolation of two consecutive input samples or (at a trailing partial
frame) the last accessed input sample. -/
theorem resample_inbounds (input : List ℚ) (fromRate toRate : ℤ)
    (hne : input ≠ []) (hf : 0 < fromRate) (ht : 0 < toRate)
    (hd : fromRate ≠ toRate) :
    ∀ i, i < (resample input fromRate toRate).length →
      (i : ℚ) * (fromRate : ℚ) / (toRate : ℚ) < (input.length : ℚ) ∧
      ⌊(i : ℚ) * (fromRate : ℚ) / (toRate : ℚ)⌋₊ < input.length ∧
      ((resample input fromRate toRate).getD i 0 =
          input.getD ⌊(i : ℚ) * (fromRate : ℚ) / (toRate : ℚ)⌋₊ 0 *
            (1 - ((i : ℚ) * (fromRate : ℚ) / (toRate : ℚ) -
              (⌊(i : ℚ) * (fromRate : ℚ) / (toRate : ℚ)⌋₊ : ℚ))) +
          input.getD (⌊(i : ℚ) * (fromRate : ℚ) / (toRate : ℚ)⌋₊ + 1) 0 *
            ((i : ℚ) * (fromRate : ℚ) / (toRate : ℚ) -
              (⌊(i : ℚ) * (fromRate : ℚ) / (toRate : ℚ)⌋₊ : ℚ)) ∨
        (⌊(i : ℚ) * (fromRate : ℚ) / (toRate : ℚ)⌋₊ = input.length - 1 ∧
          (resample input fromRate toRate).getD i 0 =
            input.getD ⌊(i : ℚ) * (fromRate : ℚ) / (toRate : ℚ)⌋₊ 0)) := by
  intro i hi
  have hguard : ¬(fromRate = toRate ∨ input = []) := by
    push_neg; exact ⟨hd, hne⟩
  have hlen : (resample input fromRate toRate).length =
      ⌊(input.length : ℚ) * ((toRate : ℚ) / (fromRate : ℚ))⌋₊ := by
    rw [resample, if_neg hguard]
    show ((List.range _).map (resampleSample input ((toRate : ℚ) / (fromRate : ℚ)))).length = _
    simp
  rw [hlen] at hi
  have hlt := srcPos_lt_length input.length fromRate toRate i hf ht hi
  have hk : ⌊(i : ℚ) * (fromRate : ℚ) / (toRate : ℚ)⌋₊ < input.length := by
    rw [Nat.floor_lt (by positivity)]
    exact_mod_cast hlt
  refine ⟨hlt, hk, ?_⟩
  have hval : (resample input fromRate toRate).getD i 0 =
      resampleSample input ((toRate : ℚ) / (fromRate : ℚ)) i := by
    rw [resample, if_neg hguard]
    show ((List.range ⌊(input.length : ℚ) * ((toRate : ℚ) / (fromRate : ℚ))⌋₊).map
        (resampleSample input ((toRate : ℚ) / (fromRate : ℚ)))).getD i 0 = _
    have hi2 : i < ((List.range ⌊(input.length : ℚ) * ((toRate : ℚ) / (fromRate : ℚ))⌋₊).map
        (resampleSample input ((toRate : ℚ) / (fromRate : ℚ)))).length := by
      simpa using hi
    rw [List.getD_eq_getElem _ 0 hi2]
    simp
  rw [hval]
  have hpos := srcPos_eq fromRate toRate i
  unfold resampleSample
  rw [hpos]
  by_cases hk1 : ⌊(i : ℚ) * (fromRate : ℚ) / (toRate : ℚ)⌋₊ + 1 < input.length
  · left
    rw [if_pos hk1]
  · right
    constructor
    · omega
    · rw [if_neg hk1, if_pos hk]

/-- Witness for claim C10 at a concrete upsampling and output index. -/
theorem resample_inbounds_witness :
    (([(1 : ℚ), 2, 3] : List ℚ) ≠ [] ∧ (0 : ℤ) < 1 ∧ (0 : ℤ) < 2 ∧ (1 : ℤ) ≠ 2 ∧
      5 < (resample [(1 : ℚ), 2, 3] 1 2).length) ∧
    ((5 : ℚ) * ((1 : ℤ) : ℚ) / ((2 : ℤ) : ℚ) < ([(1 : ℚ), 2, 3].length : ℚ)) :=
  ⟨⟨by decide, by decide, by decide, by decide, by simp [resample]; norm_num⟩,
    (resample_inbounds [(1 : ℚ), 2, 3] 1 2 (by decide) (by decide) (by decide)
      (by decide) 5 (by simp [resample]; norm_num)).1⟩

/-- Claim C8: `resample` is the identity when the two rates are equal, and on
the empty block for any pair of rates — matching the early-return guard
`if (inputRate == outputRate || input.empty()) return input;`. -/
theorem resample_identity :
    (∀ (input : List ℚ) (r : ℤ), resample input r r = input) ∧
    (∀ (fromRate toRate : ℤ), resample [] fromRate toRate = []) := by
  constructor
  · intro input r
    simp [resample]
  · intro fromRate toRate
    simp [resample]

/-- Claim C7: the note-to-frequency mapping is `440 * 2^((note-69)/12)`, so
`f(69) = 440` exactly and `f(60)` lies within 0.01 Hz of 261.63; and the
frequency-to-ratio conversion in `processToFrequency` clamps the semitone
shift to at most ±36 relative to the 261.63 Hz middle-C reference before
computing the ratio `2^(semitones/12)` (hence the ratio stays in [1/8, 8]). -/
theorem pitch_target_mapping :
    (∀ n : ℤ, midiNoteToFrequency n = 440 * (2 : ℝ) ^ (((n : ℝ) - 69) / 12)) ∧
    midiNoteToFrequency 69 = 440 ∧
    |midiNoteToFrequency 60 - 261.63| < 0.01 ∧
    ∀ t : ℝ,
      -36 ≤ processToFrequencySemitones t ∧ processToFrequencySemitones t ≤ 36 ∧
      processToFrequencyRatio t = (2 : ℝ) ^ (processToFrequencySemitones t / 12) ∧
      (1 : ℝ) / 8 ≤ processToFrequencyRatio t ∧ processToFrequencyRatio t ≤ 8 := by
  refine ⟨fun n => rfl, ?_, ?_, ?_⟩
  · unfold midiNoteToFrequency
    norm_num
  · unfold midiNoteToFrequency
    have hexp : (((60 : ℤ) : ℝ) - 69) / 12 = -((3 : ℝ) / 4) := by norm_num
    rw [hexp, Real.rpow_neg (by norm_num : (0 : ℝ) ≤ 2)]
    set t := (2 : ℝ) ^ ((3 : ℝ) / 4) with ht
    have ht0 : 0 < t := Real.rpow_pos_of_pos (by norm_num) _
    have ht4 : t ^ (4 : ℕ) = 8 := by
      rw [ht, ← Real.rpow_natCast ((2 : ℝ) ^ ((3 : ℝ) / 4)) 4,
        ← Real.rpow_mul (by norm_num : (0 : ℝ) ≤ 2)]
      rw [show (3 : ℝ) / 4 * (4 : ℕ) = ((3 : ℕ) : ℝ) by push_cast; ring]
      rw [Real.rpow_natCast]
      norm_num
    have hta : (168171 / 100000 : ℝ) < t := by
      apply lt_of_pow_lt_pow_left 4 (le_of_lt ht0)
      rw [ht4]
      norm_num
    have htb : t < (168182 / 100000 : ℝ) := by
      apply lt_of_pow_lt_pow_left 4 (by norm_num)
      rw [ht4]
      norm_num
    have hinv1 : t⁻¹ < (168171 / 100000 : ℝ)⁻¹ := by
      apply inv_lt_inv_of_lt (by norm_num) hta
    have hinv2 : (168182 / 100000 : ℝ)⁻¹ < t⁻¹ := by
      apply inv_lt_inv_of_lt ht0 htb
    rw [abs_lt]
    constructor
    · nlinarith [hinv2]
    · nlinarith [hinv1]
  · intro t
    have hs1 : -36 ≤ processToFrequencySemitones t := le_max_left _ _
    have hs2 : processToFrequencySemitones t ≤ 36 :=
      max_le (by norm_num) (min_le_left _ _)
    have h8 : (2 : ℝ) ^ (3 : ℝ) = 8 := by
      rw [show (3 : ℝ) = ((3 : ℕ) : ℝ) by norm_num, Real.rpow_natCast]
      norm_num
    have hinv : (2 : ℝ) ^ (-3 : ℝ) = 1 / 8 := by
      rw [show (-3 : ℝ) = -((3 : ℕ) : ℝ) by norm_num,
        Real.rpow_neg (by norm_num : (0 : ℝ) ≤ 2), Real.rpow_natCast]
      norm_num
    refine ⟨hs1, hs2, rfl, ?_, ?_⟩
    · rw [processToFrequencyRatio, ← hinv]
      apply Real.rpow_le_rpow_of_exponent_le (by norm_num)
      linarith
    · rw [processToFrequencyRatio, ← h8]
      apply Real.rpow_le_rpow_of_exponent_le (by norm_num)
      linarith

/-- Claim C9: whatever the other call outcomes, when the device selector does
not resolve (the default-endpoint query fails for an empty selector, or
`GetDevice` fails for a named one — and likewise if COM or the enumerator
already failed before that), `WasapiAudio::initialize` returns `false`,
leaves `running_` (isRunning) false, sets a non-empty diagnostic string, and
spawns no worker thread. -/
theorem wasapiInit_unresolved_fails (env : WasapiEnv) (s : WasapiState)
    (deviceId : String) (bufferMs : ℤ)
    (hrun : s.running = false)
    (hdefault : deviceId = "" → env.defaultDeviceOk = false)
    (hnamed : deviceId ≠ "" → env.resolveDevice deviceId = false) :
    (wasapiInit env s deviceId bufferMs).1 = false ∧
    (wasapiInit env s deviceId bufferMs).2.running = false ∧
    (wasapiInit env s deviceId bufferMs).2.lastError ≠ "" ∧
    (wasapiInit env s deviceId bufferMs).2.threadsSpawned = s.threadsSpawned := by
  unfold wasapiInit
  by_cases hcom : env.comOk = false
  · rw [if_pos hcom]
    refine ⟨rfl, hrun, ?_, rfl⟩
    show ("Failed to initialize COM" : String) ≠ ""
    decide
  · rw [if_neg hcom]
    by_cases henum : env.createEnumeratorOk = false
    · rw [if_pos henum]
      refine ⟨rfl, hrun, ?_, rfl⟩
      show ("Failed to create device enumerator" : String) ≠ ""
      decide
    · rw [if_neg henum]
      by_cases hid : deviceId = ""
      · rw [if_pos hid, if_pos (hdefault hid)]
        refine ⟨rfl, hrun, ?_, rfl⟩
        show ("Failed to get default audio device" : String) ≠ ""
        decide
      · rw [if_neg hid, if_pos (hnamed hid)]
        refine ⟨rfl, hrun, ?_, rfl⟩
        intro h
        have h2 := congrArg String.length h
        rw [String.length_append] at h2
        have h3 : ("Failed to get audio device: " : String).length = 28 := rfl
        have h4 : ("" : String).length = 0 := rfl
        omega

/-- Witness for claim C9: a fresh engine, an empty selector and an
environment whose default-endpoint query fails. -/
theorem wasapiInit_unresolved_fails_witness :
    (freshWasapiState.running = false ∧ noDeviceEnv.defaultDeviceOk = false) ∧
    ((wasapiInit noDeviceEnv freshWasapiState "" 0).1 = false ∧
      (wasapiInit noDeviceEnv freshWasapiState "" 0).2.running = false ∧
      (wasapiInit noDeviceEnv freshWasapiState "" 0).2.lastError ≠ "" ∧
      (wasapiInit noDeviceEnv freshWasapiState "" 0).2.threadsSpawned =
        freshWasapiState.threadsSpawned) :=
  ⟨⟨rfl, rfl⟩,
    wasapiInit_unresolved_fails noDeviceEnv freshWasapiState "" 0 rfl
      (fun _ => rfl) (fun h => absurd rfl h)⟩

end FlaschenTaschen
